import Mathlib

/-!
Shallow embedding of the stale-content selection pipeline of
`src/content_remover.py` (class `ContentRemover`), the final revision of the
repository.  Timestamps are modelled as `Int` seconds since the Unix epoch;
`datetime.now().date()` is floor division by 86400 (Python `//` floors), and
the plexapi filter `addedAt<< "YYYY-MM-DD"` compares the item's added
timestamp strictly against midnight of that date, i.e. against
`dayNumber * 86400` seconds.  Python lists are `List`, `list.remove` is
`List.erase` (both drop the first matching element), exceptions are the
`Except` monad, and a raised exception propagating out of the per-section
loop is `Except.error` short-circuiting `List.mapM`.
-/

/-- One media item of the catalog.  `guid` is the catalog-wide identifier a
watchlist entry carries; `addedAt` is the added timestamp in seconds;
`lastViewedAt` is carried to show it plays no role in staleness. -/
structure Item where
  ratingKey : Nat
  title : String
  guid : Nat
  addedAt : Int
  lastViewedAt : Option Int
deriving DecidableEq, Repr

/-- A named, curated sequence of items within one library section. -/
structure Collection where
  title : String
  items : List Item
deriving DecidableEq, Repr

/-- A named partition of the catalog owning items and collections. -/
structure LibrarySection where
  name : String
  items : List Item
  collections : List Collection
deriving DecidableEq, Repr

/-- One entry of a user's watchlist: a catalog-wide reference. -/
structure WatchlistEntry where
  guid : Nat
  title : String
deriving DecidableEq, Repr

/-- The MyPlexAccount collaborator: `user.watchlist()`. -/
structure Account where
  watchlist : List WatchlistEntry
deriving DecidableEq, Repr

/-- The server's library: `self._server.library`. -/
structure Library where
  sections : List LibrarySection
deriving DecidableEq, Repr

/-- The PlexServer collaborator: library plus the account. -/
structure Server where
  library : Library
  account : Account
deriving DecidableEq, Repr

/-- Lookup `self._server.library.section(name)`: `none` models plexapi's
NotFound outcome. -/
def Library.getSection (lib : Library) (name : String) : Option LibrarySection :=
  lib.sections.find? (fun s => s.name == name)

/-- Lookup `lib_section.collection(title=...)`: `none` models the falsy
not-found result tested by `if not coll` in `_remove_collections`. -/
def LibrarySection.getCollection (sec : LibrarySection) (t : String) :
    Option Collection :=
  sec.collections.find? (fun c => c.title == t)

/-- The search `lib_section.search(guid=...)` used by `_remove_watchlisted`:
every item of the section carrying this catalog-wide guid. -/
def LibrarySection.searchGuid (sec : LibrarySection) (g : Nat) : List Item :=
  sec.items.filter (fun i => i.guid == g)

/-- The search `lib_section.search(filters={"addedAt<<": date})`: every item
whose added timestamp is strictly earlier than the given threshold in
seconds. -/
def LibrarySection.searchAddedBefore (sec : LibrarySection) (thresh : Int) :
    List Item :=
  sec.items.filter (fun i => decide (i.addedAt < thresh))

/-- Seconds in one day, the granularity of `datetime.date`. -/
def secondsPerDay : Int := 86400

/-- Truncation of a timestamp to its day number: `datetime.now().date()`
keeps only the date, i.e. floor of seconds by 86400 (Python floors). -/
def dateOf (t : Int) : Int := t.fdiv secondsPerDay

/-- Per-library-section configuration read from the config file:
`stale_days`, `keep_watchlisted`, `keep_collections`.  `stale_days` is `Int`
because `configparser.getint` accepts any integer, negative included. -/
structure SectionPolicy where
  stale_days : Int
  keep_watchlisted : Bool
  keep_collections : List String
deriving DecidableEq, Repr

/-- The configuration: the process-wide `dry_run` flag and
`_library_sections_to_search` paired with each section's policy (the names
come from `config.sections()` minus `auth`, so every searched name has a
policy). -/
structure Config where
  dry_run : Bool
  sections : List (String × SectionPolicy)
deriving DecidableEq, Repr

/-- State of a constructed `ContentRemover`: its config and its server. -/
structure ContentRemoverState where
  config : Config
  server : Server
deriving DecidableEq, Repr

/-- The errors the selection can raise: plexapi NotFound on a missing
library section, and the `ValueError("Collection ... not found")` raised by
`_remove_collections` (the spec's ProtectedCollectionNotFound). -/
inductive RunError where
  | sectionNotFound (name : String)
  | collectionNotFound (title : String)
deriving DecidableEq, Repr

/-- The raw age-based stale set, the first stage of `_get_stale_content`
(lines 92-97): threshold date is `now` truncated to a date minus
`stale_days` days, and the search keeps items added strictly before that
date's midnight. -/
def raw_stale_set (sec : LibrarySection) (stale_days : Int) (now : Int) :
    List Item :=
  sec.searchAddedBefore ((dateOf now - stale_days) * secondsPerDay)

/-- The body of `_remove_watchlisted` (lines 119-142): for each watchlist
entry, resolve it inside the section by guid, and remove each resolved item
present in the stale list with `list.remove` (first occurrence).  The
`if len(result) == 0: continue` branch is the empty inner fold.  The value
returned here is also the final contents of the caller's list object, since
`list.remove` mutates the argument in place and line 142 returns that same
object. -/
def remove_watchlisted (user : Account) (stale_content : List Item)
    (lib_section : LibrarySection) : List Item :=
  user.watchlist.foldl
    (fun stale entry =>
      (lib_section.searchGuid entry.guid).foldl
        (fun acc res => if res ∈ acc then acc.erase res else acc) stale)
    stale_content

/-- Contents of the caller's `stale_content` list object after
`_remove_watchlisted` returns.  The Python function edits the argument list
in place (`stale_content.remove(res)`, line 140) and returns the very same
object (line 142), so the caller's original list afterwards holds exactly
the reduced result. -/
def remove_watchlisted_inputAfter (user : Account) (stale_content : List Item)
    (lib_section : LibrarySection) : List Item :=
  remove_watchlisted user stale_content lib_section

/-- The union pass of `_remove_collections` (lines 153-165): walk the
configured collection names in order; a missing collection raises; a found
collection's items are appended to the accumulator unless already present. -/
def collect_in_collections (collections : List String)
    (lib_section : LibrarySection) (acc : List Item) :
    Except RunError (List Item) :=
  match collections with
  | [] => Except.ok acc
  | c :: rest =>
      match lib_section.getCollection c with
      | none => Except.error (RunError.collectionNotFound c)
      | some coll =>
          collect_in_collections rest lib_section
            (coll.items.foldl
              (fun a item => if item ∈ a then a else a ++ [item]) acc)

/-- The body of `_remove_collections` (lines 144-174): build the union of
the protected collections' items (raising `ValueError` on a missing name),
then keep exactly the stale items not in that union. -/
def remove_collections (stale_content : List Item) (collections : List String)
    (lib_section : LibrarySection) : Except RunError (List Item) :=
  match collect_in_collections collections lib_section [] with
  | Except.error e => Except.error e
  | Except.ok in_collections =>
      Except.ok (stale_content.filter (fun item => !(in_collections.contains item)))

/-- The body of `_get_stale_content` (lines 84-117) for one section:
look up the section (plexapi raises NotFound when absent), compute the raw
age-based stale list, then apply the watchlist pass when
`keep_watchlisted and filtered` and the collection pass when
`len(keep_collections) > 0 and filtered`. -/
def get_stale_content_section (server : Server) (pol : SectionPolicy)
    (library_name : String) (now : Int) (filtered : Bool) :
    Except RunError (List Item) :=
  match server.library.getSection library_name with
  | none => Except.error (RunError.sectionNotFound library_name)
  | some lib_section =>
      let stale0 := raw_stale_set lib_section pol.stale_days now
      let stale1 :=
        if pol.keep_watchlisted && filtered then
          remove_watchlisted server.account stale0 lib_section
        else stale0
      if pol.keep_collections.length > 0 && filtered then
        remove_collections stale1 pol.keep_collections lib_section
      else
        Except.ok stale1

/-- The loop of `get_stale_content` (lines 60-62) over the configured
sections: build the mapping entry by entry; a raised error aborts the loop
immediately and propagates, so no mapping is produced at all. -/
def get_stale_content_loop (server : Server)
    (sections : List (String × SectionPolicy)) (now : Int) (filtered : Bool) :
    Except RunError (List (String × List Item)) :=
  match sections with
  | [] => Except.ok []
  | p :: rest =>
      match get_stale_content_section server p.snd p.fst now filtered with
      | Except.error e => Except.error e
      | Except.ok items =>
          match get_stale_content_loop server rest now filtered with
          | Except.error e => Except.error e
          | Except.ok m => Except.ok ((p.fst, items) :: m)

/-- The body of `get_stale_content` (lines 59-69): process every configured
section in order into a mapping from section name to its stale list. -/
def get_stale_content (st : ContentRemoverState) (now : Int) (filtered : Bool) :
    Except RunError (List (String × List Item)) :=
  get_stale_content_loop st.server st.config.sections now filtered

/-- Observable actions of a run: log lines and catalog deletions.  The
deletion constructor exists so that absence of deletions is expressible. -/
inductive Effect where
  | logWarning (msg : String)
  | logInfo (msg : String)
  | deleteItem (i : Item)
deriving DecidableEq, Repr

/-- The body of `clean_stale_content` (lines 71-81): compute the (filtered)
stale content; under `dry_run` log a warning and one info line per section
and return; outside `dry_run` the function body simply ends, performing no
action at all. -/
def clean_stale_content (st : ContentRemoverState) (now : Int) :
    Except RunError (List Effect) :=
  match get_stale_content st now true with
  | Except.error e => Except.error e
  | Except.ok stale =>
      if st.config.dry_run then
        Except.ok
          (Effect.logWarning "Dry run enabled, no content will be removed" ::
            stale.map (fun p =>
              Effect.logInfo
                ("Found " ++ toString p.snd.length ++ " stale items in " ++ p.fst)))
      else
        Except.ok []

/-- The deletions a run performed: empty on error (an exception aborts
before anything runs) and the delete effects of the trace on success. -/
def run_deletions (r : Except RunError (List Effect)) : List Item :=
  match r with
  | Except.error _ => []
  | Except.ok effs =>
      effs.filterMap (fun e =>
        match e with
        | Effect.deleteItem i => some i
        | _ => none)

/-- Per-section raw projection of the run, following the spec's words: for
every configured section, exactly the raw age-based stale set, with neither
protection pass nor the collection validation consulted.  Used to compare
`get_stale_content` under `filtered=False` against the spec's description. -/
def raw_stale_run_loop (server : Server)
    (sections : List (String × SectionPolicy)) (now : Int) :
    Except RunError (List (String × List Item)) :=
  match sections with
  | [] => Except.ok []
  | p :: rest =>
      match server.library.getSection p.fst with
      | none => Except.error (RunError.sectionNotFound p.fst)
      | some sec =>
          match raw_stale_run_loop server rest now with
          | Except.error e => Except.error e
          | Except.ok m =>
              Except.ok ((p.fst, raw_stale_set sec p.snd.stale_days now) :: m)

/-- The raw projection over a whole remover state: see `raw_stale_run_loop`. -/
def raw_stale_run (st : ContentRemoverState) (now : Int) :
    Except RunError (List (String × List Item)) :=
  raw_stale_run_loop st.server st.config.sections now

/-!
Concrete fixtures for witnesses and counterexamples.
-/

/-- Item added 2024-05-01 02:00 UTC (day 19844), viewed recently: its
last-viewed timestamp must play no role in staleness. -/
def itemAddedMay2024 : Item :=
  { ratingKey := 1, title := "Old Movie", guid := 101,
    addedAt := 19844 * 86400 + 7200, lastViewedAt := some (19903 * 86400) }

/-- Item added 2024-06-15 02:00 UTC (day 19889), never viewed. -/
def itemAddedJune2024 : Item :=
  { ratingKey := 2, title := "New Movie", guid := 102,
    addedAt := 19889 * 86400 + 7200, lastViewedAt := none }

/-- A movies section holding the two scenario items and no collections. -/
def demoSection2024 : LibrarySection :=
  { name := "movies", items := [itemAddedMay2024, itemAddedJune2024],
    collections := [] }

/-- Reference time 2024-06-30 10:20:30 UTC (day 19904). -/
def now20240630 : Int := 19904 * 86400 + 37230

/-- Small item fixture: added at second 0, watchlisted in the demos. -/
def demoItemW : Item :=
  { ratingKey := 10, title := "Kept", guid := 7, addedAt := 0,
    lastViewedAt := none }

/-- Small item fixture: added at second 0, in the Favorites collection. -/
def demoItemY : Item :=
  { ratingKey := 11, title := "Fav", guid := 8, addedAt := 0,
    lastViewedAt := none }

/-- Small item fixture: added at second 0, in the Extra collection. -/
def demoItemZ : Item :=
  { ratingKey := 12, title := "Extra One", guid := 9, addedAt := 0,
    lastViewedAt := none }

/-- Small item fixture: added at second 0, in no collection. -/
def demoItemU : Item :=
  { ratingKey := 13, title := "Plain", guid := 10, addedAt := 0,
    lastViewedAt := none }

/-- A section whose collections are Favorites = [demoItemY] and
Extra = [demoItemZ], holding four old items. -/
def demoSectionColl : LibrarySection :=
  { name := "movies",
    items := [demoItemW, demoItemY, demoItemZ, demoItemU],
    collections :=
      [ { title := "Favorites", items := [demoItemY] },
        { title := "Extra", items := [demoItemZ] } ] }

/-- An account whose watchlist references demoItemW by guid. -/
def demoAccount : Account :=
  { watchlist := [{ guid := 7, title := "Kept" }] }

/-- A server holding the collection demo section and the demo account. -/
def demoServer : Server :=
  { library := { sections := [demoSectionColl] }, account := demoAccount }

/-- Reference time for the small fixtures: day 100. -/
def demoNow : Int := 100 * 86400

/-- Remover state with two configured sections: a valid one and one naming
the nonexistent protected collection Ghosts. -/
def demoStateTwoSections : ContentRemoverState :=
  { config :=
      { dry_run := true,
        sections :=
          [ ("movies", { stale_days := 30, keep_watchlisted := false,
                         keep_collections := [] }),
            ("movies", { stale_days := 30, keep_watchlisted := false,
                         keep_collections := ["Ghosts"] }) ] },
    server := demoServer }

/-- Item added today, one hour after midnight of day 100. -/
def demoItemFresh : Item :=
  { ratingKey := 20, title := "Fresh", guid := 20,
    addedAt := 100 * 86400 + 3600, lastViewedAt := none }

/-- A movies section holding only the freshly added item. -/
def demoSectionFresh : LibrarySection :=
  { name := "movies", items := [demoItemFresh], collections := [] }

/-- A server holding the fresh section and an empty watchlist. -/
def demoServerFresh : Server :=
  { library := { sections := [demoSectionFresh] },
    account := { watchlist := [] } }

/-- Reference time noon of day 100, later the same day the fresh item was
added. -/
def demoNowNoon : Int := 100 * 86400 + 43200

/-- Remover state with a single section whose retention is negative. -/
def demoStateNegRetention : ContentRemoverState :=
  { config :=
      { dry_run := true,
        sections :=
          [ ("movies", { stale_days := -30, keep_watchlisted := false,
                         keep_collections := [] }) ] },
    server := demoServerFresh }

/-!
Helper lemmas shared by the claim theorems.
-/

/-- One watchlist entry's removal step only erases elements: the fold of
conditional `List.erase` over the resolved items is a sublist of its
input. -/
theorem erase_foldl_sublist (ms : List Item) (s : List Item) :
    (ms.foldl (fun acc res => if res ∈ acc then acc.erase res else acc)
      s).Sublist s := by
  induction ms generalizing s with
  | nil => exact List.Sublist.refl s
  | cons m ms ih =>
      simp only [List.foldl_cons]
      refine (ih _).trans ?_
      by_cases h : m ∈ s
      · rw [if_pos h]; exact List.erase_sublist m s
      · rw [if_neg h]

/-- The whole watchlist fold only erases elements. -/
theorem watch_foldl_sublist (ws : List WatchlistEntry) (s : List Item)
    (l : LibrarySection) :
    (ws.foldl
      (fun stale entry =>
        (l.searchGuid entry.guid).foldl
          (fun acc res => if res ∈ acc then acc.erase res else acc) stale)
      s).Sublist s := by
  induction ws generalizing s with
  | nil => exact List.Sublist.refl s
  | cons w ws ih =>
      simp only [List.foldl_cons]
      exact (ih _).trans (erase_foldl_sublist _ s)

/-- The watchlist pass returns a sublist of its input. -/
theorem remove_watchlisted_sublist (u : Account) (s : List Item)
    (l : LibrarySection) : (remove_watchlisted u s l).Sublist s :=
  watch_foldl_sublist u.watchlist s l

/-- A successful collection pass returns a sublist of its input. -/
theorem remove_collections_ok_sublist (s : List Item) (cs : List String)
    (l : LibrarySection) (r : List Item)
    (h : remove_collections s cs l = Except.ok r) : r.Sublist s := by
  unfold remove_collections at h
  cases hc : collect_in_collections cs l [] with
  | error e => rw [hc] at h; cases h
  | ok P =>
      rw [hc] at h
      injection h with h
      subst h
      exact List.filter_sublist s

/-- Membership after the dedup-append fold of one collection's items. -/
theorem mem_dedup_foldl (items a : List Item) (x : Item) :
    x ∈ items.foldl (fun a i => if i ∈ a then a else a ++ [i]) a ↔
      x ∈ a ∨ x ∈ items := by
  induction items generalizing a with
  | nil => simp
  | cons i is ih =>
      simp only [List.foldl_cons]
      rw [ih]
      by_cases h : i ∈ a
      · rw [if_pos h]
        simp only [List.mem_cons]
        constructor
        · rintro (hx | hx)
          · exact Or.inl hx
          · exact Or.inr (Or.inr hx)
        · rintro (hx | rfl | hx)
          · exact Or.inl hx
          · exact Or.inl h
          · exact Or.inr hx
      · rw [if_neg h]
        simp only [List.mem_append, List.mem_singleton, List.mem_cons]
        tauto

/-- Membership in a successfully collected protection union: an item is in
the union exactly when it was already accumulated or lies in some found
protected collection. -/
theorem mem_collect_in_collections (cs : List String) (l : LibrarySection)
    (acc P : List Item) (h : collect_in_collections cs l acc = Except.ok P)
    (x : Item) :
    x ∈ P ↔ x ∈ acc ∨
      ∃ c ∈ cs, ∃ coll, l.getCollection c = some coll ∧ x ∈ coll.items := by
  induction cs generalizing acc with
  | nil =>
      simp only [collect_in_collections] at h
      injection h with h
      subst h
      simp
  | cons c cs ih =>
      simp only [collect_in_collections] at h
      cases hc : l.getCollection c with
      | none => rw [hc] at h; cases h
      | some coll =>
          rw [hc] at h
          rw [ih _ h, mem_dedup_foldl]
          constructor
          · rintro ((hx | hx) | ⟨c', hc', coll', hcoll', hx⟩)
            · exact Or.inl hx
            · exact Or.inr ⟨c, List.mem_cons_self c cs, coll, hc, hx⟩
            · exact Or.inr ⟨c', List.mem_cons_of_mem c hc', coll', hcoll', hx⟩
          · rintro (hx | ⟨c', hc', coll', hcoll', hx⟩)
            · exact Or.inl (Or.inl hx)
            · rcases List.mem_cons.mp hc' with rfl | hmem
              · rw [hc] at hcoll'
                injection hcoll' with he
                subst he
                exact Or.inl (Or.inr hx)
              · exact Or.inr ⟨c', hmem, coll', hcoll', hx⟩

/-- A protected name with no collection of that name makes the union pass
raise for some missing configured name. -/
theorem collect_missing_error (cs : List String) (l : LibrarySection)
    (c : String) (hc : c ∈ cs) (hmiss : l.getCollection c = none)
    (acc : List Item) :
    ∃ t, collect_in_collections cs l acc =
        Except.error (RunError.collectionNotFound t) ∧
      t ∈ cs ∧ l.getCollection t = none := by
  induction cs generalizing acc with
  | nil => cases hc
  | cons d ds ih =>
      cases hd : l.getCollection d with
      | none =>
          refine ⟨d, ?_, List.mem_cons_self d ds, hd⟩
          simp only [collect_in_collections, hd]
      | some coll =>
          rcases List.mem_cons.mp hc with rfl | hmem
          · rw [hd] at hmiss; cases hmiss
          · rcases ih hmem _ with ⟨t, h1, h2, h3⟩
            refine ⟨t, ?_, List.mem_cons_of_mem d h2, h3⟩
            simp only [collect_in_collections, hd]
            exact h1

/-- The second stage of `_get_stale_content` as a conditional, for reuse:
a successful outcome is always a subset of the stage input. -/
theorem stage2_subset (s1 : List Item) (cs : List String) (l : LibrarySection)
    (b : Bool) (final : List Item)
    (h : (if b then remove_collections s1 cs l else Except.ok s1) =
        Except.ok final) :
    final ⊆ s1 := by
  cases b with
  | false =>
      rw [if_neg (by simp)] at h
      injection h with h
      subst h
      exact fun x hx => hx
  | true =>
      rw [if_pos rfl] at h
      exact (remove_collections_ok_sublist s1 cs l final h).subset

/-- The first stage of `_get_stale_content` as a conditional: its outcome is
always a subset of the raw stale list. -/
theorem stage1_subset (acct : Account) (s0 : List Item) (sec : LibrarySection)
    (b : Bool) :
    (if b then remove_watchlisted acct s0 sec else s0) ⊆ s0 := by
  cases b with
  | false => rw [if_neg (by simp)]; exact fun x hx => hx
  | true =>
      rw [if_pos rfl]
      exact (remove_watchlisted_sublist acct s0 sec).subset

/-- Unfolding of `_get_stale_content` once the section lookup succeeds. -/
theorem get_stale_content_section_eq (server : Server) (pol : SectionPolicy)
    (library_name : String) (now : Int) (filtered : Bool)
    (sec : LibrarySection)
    (hsec : server.library.getSection library_name = some sec) :
    get_stale_content_section server pol library_name now filtered =
      (let stale0 := raw_stale_set sec pol.stale_days now
       let stale1 :=
         if pol.keep_watchlisted && filtered then
           remove_watchlisted server.account stale0 sec
         else stale0
       if pol.keep_collections.length > 0 && filtered then
         remove_collections stale1 pol.keep_collections sec
       else Except.ok stale1) := by
  unfold get_stale_content_section
  rw [hsec]

/-- Demo policy with no protection configured. -/
def demoPolPlain : SectionPolicy :=
  { stale_days := 30, keep_watchlisted := false, keep_collections := [] }

/-- Demo policy with both protections configured. -/
def demoPolFull : SectionPolicy :=
  { stale_days := 30, keep_watchlisted := true,
    keep_collections := ["Favorites"] }

/-- C1: for every candidate set, library section, and set of protected
collection names containing a name with no collection of exactly that name
in the section, `_remove_collections` raises the collection-not-found error
for some such missing configured name; it never returns a filtered list. -/
theorem remove_collections_missing_name_raises (s : List Item)
    (cs : List String) (l : LibrarySection) (c : String) (hc : c ∈ cs)
    (hmiss : l.getCollection c = none) :
    ∃ t, remove_collections s cs l =
        Except.error (RunError.collectionNotFound t) ∧
      t ∈ cs ∧ l.getCollection t = none := by
  rcases collect_missing_error cs l c hc hmiss [] with ⟨t, h1, h2, h3⟩
  refine ⟨t, ?_, h2, h3⟩
  unfold remove_collections
  rw [h1]

/-- Witness for C1 at the concrete missing name Ghosts. -/
theorem remove_collections_missing_name_raises_witness :
    ("Ghosts" ∈ ["Ghosts"] ∧ demoSectionColl.getCollection "Ghosts" = none) ∧
    ∃ t, remove_collections [demoItemU] ["Ghosts"] demoSectionColl =
        Except.error (RunError.collectionNotFound t) ∧
      t ∈ ["Ghosts"] ∧ demoSectionColl.getCollection t = none :=
  ⟨⟨by decide, by decide⟩,
    remove_collections_missing_name_raises [demoItemU] ["Ghosts"]
      demoSectionColl "Ghosts" (by decide) (by decide)⟩

/-- C2: a successful filtered per-section run returns a subset of the raw
age-based stale set of that section: the protection passes only remove. -/
theorem final_stale_subset_of_raw (server : Server) (pol : SectionPolicy)
    (library_name : String) (now : Int) (sec : LibrarySection)
    (final : List Item)
    (hsec : server.library.getSection library_name = some sec)
    (h : get_stale_content_section server pol library_name now true =
        Except.ok final) :
    final ⊆ raw_stale_set sec pol.stale_days now := by
  rw [get_stale_content_section_eq server pol library_name now true sec hsec]
    at h
  dsimp only at h
  split at h
  · exact fun x hx =>
      stage1_subset server.account (raw_stale_set sec pol.stale_days now) sec
        (pol.keep_watchlisted && true)
        ((remove_collections_ok_sublist _ pol.keep_collections sec final
          h).subset hx)
  · injection h with h
    subst h
    exact stage1_subset server.account _ sec _

/-- Witness for C2 on the demo server with both protections on. -/
theorem final_stale_subset_of_raw_witness :
    (demoServer.library.getSection "movies" = some demoSectionColl ∧
      get_stale_content_section demoServer demoPolFull "movies" demoNow true =
        Except.ok [demoItemZ, demoItemU]) ∧
    [demoItemZ, demoItemU] ⊆
      raw_stale_set demoSectionColl demoPolFull.stale_days demoNow :=
  ⟨⟨by decide, by rfl⟩,
    final_stale_subset_of_raw demoServer demoPolFull "movies" demoNow
      demoSectionColl [demoItemZ, demoItemU] (by decide) (by rfl)⟩

/-- C4: with watchlist protection off and no protected collection names,
the filtered per-section run returns exactly the raw age-based stale set. -/
theorem empty_protection_noop (server : Server) (pol : SectionPolicy)
    (library_name : String) (now : Int) (sec : LibrarySection)
    (hw : pol.keep_watchlisted = false) (hc : pol.keep_collections = [])
    (hsec : server.library.getSection library_name = some sec) :
    get_stale_content_section server pol library_name now true =
      Except.ok (raw_stale_set sec pol.stale_days now) := by
  rw [get_stale_content_section_eq server pol library_name now true sec hsec]
  dsimp only
  rw [hw, hc]
  simp

/-- Witness for C4 on the unprotected demo policy. -/
theorem empty_protection_noop_witness :
    (demoPolPlain.keep_watchlisted = false ∧
      demoPolPlain.keep_collections = [] ∧
      demoServer.library.getSection "movies" = some demoSectionColl) ∧
    get_stale_content_section demoServer demoPolPlain "movies" demoNow true =
      Except.ok (raw_stale_set demoSectionColl demoPolPlain.stale_days
        demoNow) :=
  ⟨⟨rfl, rfl, by decide⟩,
    empty_protection_noop demoServer demoPolPlain "movies" demoNow
      demoSectionColl rfl rfl (by decide)⟩

/-- C6 counterexample: `_remove_watchlisted` edits the caller's list in
place, so after the call on a candidate list holding the watchlisted demo
item the caller's original list no longer holds its pre-call elements. -/
theorem remove_watchlisted_mutates_input_cex :
    remove_watchlisted_inputAfter demoAccount [demoItemW] demoSectionColl ≠
      [demoItemW] := by
  decide

/-- C6 amended: the pass returns the reduced list, and since removal is
in-place, the caller's list after the call holds exactly that reduced list,
which arises from the pre-call contents by removals only (a sublist). -/
theorem remove_watchlisted_inputAfter_reduced (user : Account)
    (s : List Item) (l : LibrarySection) :
    remove_watchlisted_inputAfter user s l = remove_watchlisted user s l ∧
    (remove_watchlisted_inputAfter user s l).Sublist s :=
  ⟨rfl, remove_watchlisted_sublist user s l⟩

/-- C3: the raw stale set holds exactly the section items whose added
timestamp is strictly earlier than the whole-day threshold (now truncated
to a date, minus the retention days); the last-viewed timestamp plays no
role, and concretely with 30 retention days at 2024-06-30 the item added
2024-05-01 is selected while the item added 2024-06-15 is not. -/
theorem raw_stale_set_iff_added_before_threshold (sec : LibrarySection)
    (stale_days now : Int) (hd : 0 ≤ stale_days) (i : Item) :
    (i ∈ raw_stale_set sec stale_days now ↔
      i ∈ sec.items ∧
        i.addedAt < (dateOf now - stale_days) * secondsPerDay) ∧
    itemAddedMay2024 ∈ raw_stale_set demoSection2024 30 now20240630 ∧
    itemAddedJune2024 ∉ raw_stale_set demoSection2024 30 now20240630 := by
  refine ⟨?_, by decide, by decide⟩
  simp [raw_stale_set, LibrarySection.searchAddedBefore, List.mem_filter]

/-- Witness for C3 at the 2024 scenario fixtures. -/
theorem raw_stale_set_iff_added_before_threshold_witness :
    ((0:Int) ≤ 30) ∧
    ((itemAddedMay2024 ∈ raw_stale_set demoSection2024 30 now20240630 ↔
      itemAddedMay2024 ∈ demoSection2024.items ∧
        itemAddedMay2024.addedAt <
          (dateOf now20240630 - 30) * secondsPerDay) ∧
     itemAddedMay2024 ∈ raw_stale_set demoSection2024 30 now20240630 ∧
     itemAddedJune2024 ∉ raw_stale_set demoSection2024 30 now20240630) :=
  ⟨by decide,
    raw_stale_set_iff_added_before_threshold demoSection2024 30 now20240630
      (by decide) itemAddedMay2024⟩

/-- A member section whose per-section computation raises makes the whole
loop raise. -/
theorem loop_error_of_mem (server : Server)
    (sections : List (String × SectionPolicy)) (now : Int) (filtered : Bool)
    (name : String) (pol : SectionPolicy)
    (hmem : (name, pol) ∈ sections) (e : RunError)
    (hfail : get_stale_content_section server pol name now filtered =
      Except.error e) :
    ∃ e', get_stale_content_loop server sections now filtered =
      Except.error e' := by
  induction sections with
  | nil => cases hmem
  | cons p rest ih =>
      obtain ⟨pn, pp⟩ := p
      rcases List.mem_cons.mp hmem with heq | hmem'
      · rw [Prod.mk.injEq] at heq
        obtain ⟨h1, h2⟩ := heq
        subst h1
        subst h2
        exact ⟨e, by simp only [get_stale_content_loop, hfail]⟩
      · cases hp : get_stale_content_section server pp pn now filtered with
        | error e2 =>
            exact ⟨e2, by simp only [get_stale_content_loop, hp]⟩
        | ok items =>
            rcases ih hmem' with ⟨e', h'⟩
            exact ⟨e', by simp only [get_stale_content_loop, hp, h']⟩

/-- C5: failure is atomic across sections: when any configured section's
filtered computation raises, `get_stale_content` yields an error and
reports no final set for any section, also for sections that would have
succeeded. -/
theorem run_error_aborts_all_sections (st : ContentRemoverState) (now : Int)
    (name : String) (pol : SectionPolicy)
    (hmem : (name, pol) ∈ st.config.sections) (e : RunError)
    (hfail : get_stale_content_section st.server pol name now true =
      Except.error e) :
    ∃ e', get_stale_content st now true = Except.error e' := by
  unfold get_stale_content
  exact loop_error_of_mem st.server st.config.sections now true name pol
    hmem e hfail

/-- Demo policy protecting the nonexistent collection Ghosts. -/
def demoPolGhost : SectionPolicy :=
  { stale_days := 30, keep_watchlisted := false,
    keep_collections := ["Ghosts"] }

/-- Witness for C5: a valid section plus a section naming the missing
collection Ghosts make the whole run raise. -/
theorem run_error_aborts_all_sections_witness :
    (("movies", demoPolGhost) ∈ demoStateTwoSections.config.sections ∧
      get_stale_content_section demoStateTwoSections.server demoPolGhost
          "movies" demoNow true =
        Except.error (RunError.collectionNotFound "Ghosts")) ∧
    ∃ e', get_stale_content demoStateTwoSections demoNow true =
      Except.error e' :=
  ⟨⟨by decide, by rfl⟩,
    run_error_aborts_all_sections demoStateTwoSections demoNow "movies"
      demoPolGhost (by decide) (RunError.collectionNotFound "Ghosts")
      (by rfl)⟩

/-- Adding one protected name in front of the configured list can only
shrink a successful collection pass. -/
theorem remove_collections_cons_subset (s : List Item) (S : List String)
    (n : String) (l : LibrarySection) (r r' : List Item)
    (h : remove_collections s S l = Except.ok r)
    (h' : remove_collections s (n :: S) l = Except.ok r') :
    r' ⊆ r := by
  unfold remove_collections at h h'
  cases hP : collect_in_collections S l [] with
  | error e => rw [hP] at h; cases h
  | ok P =>
      rw [hP] at h
      injection h with h
      subst h
      cases hn : l.getCollection n with
      | none => simp only [collect_in_collections, hn] at h'; cases h'
      | some coll =>
          cases hP' : collect_in_collections S l
              (coll.items.foldl
                (fun a item => if item ∈ a then a else a ++ [item]) []) with
          | error e =>
              simp only [collect_in_collections, hn, hP'] at h'
              cases h'
          | ok P' =>
              simp only [collect_in_collections, hn, hP'] at h'
              injection h' with h'
              subst h'
              intro x hx
              rcases List.mem_filter.mp hx with ⟨hxs, hxb⟩
              refine List.mem_filter.mpr ⟨hxs, ?_⟩
              simp only [Bool.not_eq_true', ← Bool.not_eq_true,
                List.contains, List.elem_eq_mem, decide_eq_true_eq] at hxb ⊢
              intro hxP
              apply hxb
              rw [mem_collect_in_collections S l _ P' hP' x]
              rw [mem_collect_in_collections S l [] P hP x] at hxP
              rcases hxP with hfalse | hD
              · cases hfalse
              · exact Or.inr hD

/-- C7: collection protection is monotone at the per-section level: when
the run with protected names S and the run with S plus one extra name both
succeed, the latter's final set is contained in the former's. -/
theorem protection_monotone (server : Server) (library_name : String)
    (now : Int) (days : Int) (kw : Bool) (S : List String) (n : String)
    (r r' : List Item)
    (h : get_stale_content_section server ⟨days, kw, S⟩ library_name now
        true = Except.ok r)
    (h' : get_stale_content_section server ⟨days, kw, n :: S⟩ library_name
        now true = Except.ok r') :
    r' ⊆ r := by
  cases hsec : server.library.getSection library_name with
  | none => simp [get_stale_content_section, hsec] at h
  | some sec =>
      rw [get_stale_content_section_eq server _ library_name now true sec
        hsec] at h h'
      dsimp only at h h'
      cases S with
      | nil =>
          rw [if_neg (by decide)] at h
          rw [if_pos (by simp)] at h'
          injection h with h
          subst h
          exact (remove_collections_ok_sublist _ _ sec r' h').subset
      | cons c cs =>
          rw [if_pos (by simp)] at h
          rw [if_pos (by simp)] at h'
          exact remove_collections_cons_subset _ (c :: cs) n sec r r' h h'

/-- Witness for C7: protecting Extra in addition to Favorites shrinks the
demo section's final set. -/
theorem protection_monotone_witness :
    (get_stale_content_section demoServer ⟨30, false, ["Favorites"]⟩
        "movies" demoNow true =
      Except.ok [demoItemW, demoItemZ, demoItemU] ∧
     get_stale_content_section demoServer ⟨30, false, ["Extra", "Favorites"]⟩
        "movies" demoNow true =
      Except.ok [demoItemW, demoItemU]) ∧
    [demoItemW, demoItemU] ⊆ [demoItemW, demoItemZ, demoItemU] :=
  ⟨⟨by rfl, by rfl⟩,
    protection_monotone demoServer "movies" demoNow 30 false ["Favorites"]
      "Extra" [demoItemW, demoItemZ, demoItemU] [demoItemW, demoItemU]
      (by rfl) (by rfl)⟩

/-- Lists whose elements all map to none filter-map to the empty list. -/
theorem filterMap_none_nil {α β : Type _} (l : List α) (f : α → Option β)
    (hf : ∀ a ∈ l, f a = none) : l.filterMap f = [] := by
  induction l with
  | nil => rfl
  | cons a l ih =>
      rw [List.filterMap_cons, hf a (List.mem_cons_self a l)]
      exact ih (fun x hx => hf x (List.mem_cons_of_mem a hx))

/-- C9: `clean_stale_content` never invokes deletion: for every remover
state and reference time, in dry-run and non-dry-run mode alike, the run's
trace holds no delete effect. -/
theorem clean_stale_content_no_deletions (st : ContentRemoverState)
    (now : Int) : run_deletions (clean_stale_content st now) = [] := by
  unfold clean_stale_content
  cases h : get_stale_content st now true with
  | error e => rfl
  | ok stale =>
      cases hd : st.config.dry_run with
      | false => rfl
      | true =>
          dsimp only
          rw [if_pos rfl]
          simp only [run_deletions]
          apply filterMap_none_nil
          intro a ha
          rcases List.mem_cons.mp ha with rfl | ha'
          · rfl
          · rcases List.mem_map.mp ha' with ⟨p, hp, rfl⟩
            rfl

/-- The per-section computation with filtering disabled: both protection
passes and the collection validation are skipped, leaving the bare section
lookup and raw age-based search. -/
theorem get_stale_content_section_unfiltered (server : Server)
    (pol : SectionPolicy) (library_name : String) (now : Int) :
    get_stale_content_section server pol library_name now false =
      match server.library.getSection library_name with
      | none => Except.error (RunError.sectionNotFound library_name)
      | some sec => Except.ok (raw_stale_set sec pol.stale_days now) := by
  cases hsec : server.library.getSection library_name with
  | none => simp [get_stale_content_section, hsec]
  | some sec =>
      rw [get_stale_content_section_eq server pol library_name now false sec
        hsec]
      simp

/-- C10: `get_stale_content` with filtered false is exactly the raw
projection: every configured section maps to its raw age-based stale set,
with both protection passes skipped and the missing-collection validation
bypassed for every policy, keep flags and protected names included. -/
theorem get_stale_content_unfiltered_eq_raw_run (st : ContentRemoverState)
    (now : Int) : get_stale_content st now false = raw_stale_run st now := by
  unfold get_stale_content raw_stale_run
  generalize st.config.sections = l
  induction l with
  | nil => rfl
  | cons p rest ih =>
      simp only [get_stale_content_loop, raw_stale_run_loop,
        get_stale_content_section_unfiltered]
      cases hsec : st.server.library.getSection p.fst with
      | none => rfl
      | some sec => rw [ih]

/-- C8 counterexample: a run whose only section has retention -30 does not
fail with any configuration error: it succeeds, and its future threshold
selects even the item added one hour into the current day. -/
theorem negative_retention_no_error_cex :
    get_stale_content demoStateNegRetention demoNowNoon true =
      Except.ok [("movies", [demoItemFresh])] := by rfl

/-- C8 amended: negative retention is accepted, not rejected: the selector
proceeds with the threshold computed from the negative value, which lies in
the future, so every section item added at or before now is selected. -/
theorem negative_retention_selects_all_added_before_now
    (sec : LibrarySection) (stale_days now : Int) (hneg : stale_days < 0)
    (i : Item) (hi : i ∈ sec.items) (hadd : i.addedAt ≤ now) :
    i ∈ raw_stale_set sec stale_days now := by
  unfold raw_stale_set LibrarySection.searchAddedBefore
  rw [List.mem_filter]
  refine ⟨hi, ?_⟩
  rw [decide_eq_true_eq]
  unfold dateOf secondsPerDay
  have h1 : now < (now.fdiv 86400 + 1) * 86400 := by
    have h := Int.fdiv_add_fmod now 86400
    have h2 := Int.fmod_lt_of_pos now (b := 86400) (by norm_num)
    nlinarith [h, h2]
  have h3 : now.fdiv 86400 + 1 ≤ now.fdiv 86400 - stale_days := by omega
  have h4 : (now.fdiv 86400 + 1) * 86400 ≤
      (now.fdiv 86400 - stale_days) * 86400 := by nlinarith [h3]
  linarith [hadd, h1, h4]

/-- Witness for the amended C8 at the fresh fixture. -/
theorem negative_retention_selects_all_added_before_now_witness :
    ((-30 : Int) < 0 ∧ demoItemFresh ∈ demoSectionFresh.items ∧
      demoItemFresh.addedAt ≤ demoNowNoon) ∧
    demoItemFresh ∈ raw_stale_set demoSectionFresh (-30) demoNowNoon :=
  ⟨⟨by decide, by decide, by decide⟩,
    negative_retention_selects_all_added_before_now demoSectionFresh (-30)
      demoNowNoon (by decide) demoItemFresh (by decide) (by decide)⟩
